import Mathlib

/-!
Verification development for the `inp-viz` survey dashboard core: the CSV
normalizer (`src/app/api/survey/utils.ts`), the HTTP route handler
(`src/app/api/survey/route.ts`), and the survey aggregator
(`src/components/viz.tsx`, survey-selector revision).  JS strings are Lean
`String`s, JS objects over string keys are insertion-ordered association
lists, JS `Math.round` on the nonnegative quantities used here is
round-half-up, and the JS `NaN` produced by an unguarded `0/0` is `none`.
-/

/-- Whitespace characters removed by JS `String.prototype.trim` (the ones
that can occur in this ASCII data). -/
def isWSChar (c : Char) : Bool :=
  c = ' ' || c = '\t' || c = '\n' || c = '\r' || c = '\x0b' || c = '\x0c'

/-- JS `s.trim()` on a character list: drop whitespace from both ends. -/
def trimChars (l : List Char) : List Char :=
  ((l.dropWhile isWSChar).reverse.dropWhile isWSChar).reverse

/-- JS `s.trim()`. -/
def jsTrim (s : String) : String :=
  String.mk (trimChars s.data)

/-- The per-cell normalization used throughout `parseSurveyCSV`
(`col?.trim().replace(/^"/, "").replace(/"$/, "")`): trim whitespace, then
drop one leading and one trailing double-quote character when present. -/
def stripCell (s : String) : String :=
  let t := trimChars s.data
  let t1 := match t with
    | '"' :: rest => rest
    | _ => t
  let t2 := match t1.reverse with
    | '"' :: rest => rest.reverse
    | _ => t1
  String.mk t2

/-- Character-level model of `Papa.parse` under the options `parseSurveyCSV`
passes (`header: false`, `skipEmptyLines: false`, `delimiter: ","`,
`quoteChar: '"'`): RFC-4180-style rows of cells, a doubled `""` inside a
quoted cell is a literal quote, `\n` / `\r\n` / `\r` end a row, and the final
row is emitted even without a trailing newline.  State: remaining input,
inside-quotes flag, current cell, current row, completed rows. -/
def papaAux : List Char → Bool → List Char → List (List Char) →
    List (List (List Char)) → List (List (List Char))
  | [], _, cell, row, rows => rows ++ [row ++ [cell]]
  | '"' :: '"' :: rest, true, cell, row, rows =>
      papaAux rest true (cell ++ ['"']) row rows
  | '"' :: rest, true, cell, row, rows => papaAux rest false cell row rows
  | c :: rest, true, cell, row, rows => papaAux rest true (cell ++ [c]) row rows
  | '"' :: rest, false, cell, row, rows =>
      if cell = [] then papaAux rest true cell row rows
      else papaAux rest false (cell ++ ['"']) row rows
  | ',' :: rest, false, cell, row, rows =>
      papaAux rest false [] (row ++ [cell]) rows
  | '\r' :: '\n' :: rest, false, cell, row, rows =>
      papaAux rest false [] [] (rows ++ [row ++ [cell]])
  | '\n' :: rest, false, cell, row, rows =>
      papaAux rest false [] [] (rows ++ [row ++ [cell]])
  | '\r' :: rest, false, cell, row, rows =>
      papaAux rest false [] [] (rows ++ [row ++ [cell]])
  | c :: rest, false, cell, row, rows => papaAux rest false (cell ++ [c]) row rows

/-- `Papa.parse(fileContents, {header: false, ...}).data` as a list of rows of
cell strings. -/
def papaParse (s : String) : List (List String) :=
  (papaAux s.data false [] [] []).map (fun row => row.map String.mk)

/-- A JS object with string keys and string values, as an insertion-ordered
association list (no duplicate keys once built via `objSet`). -/
abbrev Obj := List (String × String)

/-- JS property assignment `o[k] = v`: overwrite in place when the key exists
(the key keeps its original position), append otherwise. -/
def objSet (o : Obj) (k v : String) : Obj :=
  if o.any (fun p => p.1 = k) then
    o.map (fun p => if p.1 = k then (k, v) else p)
  else o ++ [(k, v)]

/-- JS property read `o[k]`; a missing key (JS `undefined`) is modelled as
`""`, which matches every consumer here (both are falsy and neither is a
Likert label). -/
def objGet (o : Obj) (k : String) : String :=
  match o.find? (fun p => p.1 = k) with
  | some p => p.2
  | none => ""

/-- Value of data-row cell `i` after stripping, i.e.
`row[i]?.trim().replace(/^"/, "").replace(/"$/, "") || ""`. -/
def cellAt (row : List String) (i : Nat) : String :=
  if i < row.length then stripCell (row.getD i "") else ""

/-- Row-to-record mapping
`headers.forEach((header, i) => obj[header] = row[i]... )`. -/
def mkRecord (headers : List String) (row : List String) : Obj :=
  headers.enum.foldl (fun o p => objSet o p.2 (cellAt row p.1)) []

/-- Header-row test: some cell, trimmed and quote-stripped, equals the anchor
value `"First Name"`. -/
def hasAnchorRow (row : List String) : Bool :=
  row.any (fun c => stripCell c = "First Name")

/-- Row-retention test `row.some(cell => cell?.trim())`: some cell is
non-empty after trimming. -/
def rowNonBlank (row : List String) : Bool :=
  row.any (fun c => trimChars c.data ≠ [])

/-- Result shape of `parseSurveyCSV`. -/
structure SurveyParseResult where
  totalRows : Nat
  headerRowIndex : Nat
  headers : List String
  data : List Obj
deriving Repr, DecidableEq

deriving instance DecidableEq for Except

/-- The pure tail of `parseSurveyCSV`, from the parsed rows onward: find the
first row containing the anchor cell (throwing
`Error("Could not find header row")` when none exists), derive the stripped
header names, keep the non-blank rows strictly after the header, and map each
into a record. -/
def normalizeRows (rows : List (List String)) : Except String SurveyParseResult :=
  match rows.findIdx? hasAnchorRow with
  | none => .error "Could not find header row"
  | some i =>
      let headers := (rows.getD i []).map stripCell
      let allData := ((rows.drop (i + 1)).filter rowNonBlank).map (mkRecord headers)
      .ok ⟨rows.length, i, headers, allData⟩

/-- `parseSurveyCSV` minus the file IO (the spec's `normalize` contract):
parse the raw text, then normalize the rows. -/
def parseSurveyCSV (text : String) : Except String SurveyParseResult :=
  normalizeRows (papaParse text)

/-! ## Survey aggregator (`src/components/viz.tsx`, survey-selector revision) -/

/-- The fixed seven-point Likert scale, in the key order of the `counts`
object literal in `processLikertResponses`. -/
def likertLabels : List String :=
  ["Strongly Agree", "Agree", "Somewhat Agree", "Neutral",
   "Somewhat Disagree", "Disagree", "Strongly Disagree"]

/-- `pat` occurs as a contiguous run in `l` (JS `String.includes` on char
lists). -/
def isPrefixList : List Char → List Char → Bool
  | [], _ => true
  | _ :: _, [] => false
  | p :: ps, c :: cs => p = c && isPrefixList ps cs

/-- Substring search underlying JS `String.includes`. -/
def hasInfixList (pat : List Char) : List Char → Bool
  | [] => isPrefixList pat []
  | c :: cs => isPrefixList pat (c :: cs) || hasInfixList pat cs

/-- JS `s.includes(pat)`. -/
def strIncludes (s pat : String) : Bool :=
  hasInfixList pat.data s.data

/-- `Math.round(a / b)` for the nonnegative integer quantities used here:
round half up, i.e. `⌊a / b + 1 / 2⌋ = (2 a + b) / (2 b)` in natural-number
division. -/
def roundDiv (a b : Nat) : Nat :=
  (2 * a + b) / (2 * b)

/-- One slice of a question's response distribution (`ChartData`). -/
structure ChartData where
  name : String
  value : Nat
  percentage : Nat
deriving Repr, DecidableEq

/-- `processLikertResponses`: collect the column's non-empty values, count
each value that is one of the seven Likert labels, drop zero counts, and
report `Math.round(count / responses.length * 100)` (equal in exact
arithmetic to `round(100 * count / responses.length)`). -/
def processLikertResponses (data : List Obj) (question : String) : List ChartData :=
  if data = [] then []
  else
    let responses := (data.map (fun row => objGet row question)).filter (fun v => v ≠ "")
    let counts := responses.foldl
      (fun cs r =>
        if likertLabels.contains r then
          cs.map (fun p => if p.1 = r then (p.1, p.2 + 1) else p)
        else cs)
      (likertLabels.map (fun l => (l, 0)))
    (counts.filter (fun p => p.2 > 0)).map
      (fun p => ⟨p.1, p.2, roundDiv (100 * p.2) responses.length⟩)

/-- The `isValidResponse` half of the question classifier: the first record's
value for the column is a non-empty string containing `"Agree"` or
`"Disagree"`. -/
def isValidResponseValue (v : String) : Bool :=
  v ≠ "" && (strIncludes v "Agree" || strIncludes v "Disagree")

/-- The `isMetadataField` half of the question classifier: the key starts
with `"Response"`, contains `"ID"`, or is one of the four fixed metadata
names. -/
def isMetadataKey (key : String) : Bool :=
  isPrefixList "Response".data key.data || strIncludes key "ID" ||
    ["First Name", "Last Name", "Title", "Organization"].contains key

/-- Question classification over `Object.keys(parsedData[0] || {})` — the
filter body shared verbatim by `loadData` and `calculateAveragePercentage`. -/
def classifyQuestions (data : List Obj) : List String :=
  match data with
  | [] => []
  | row0 :: _ =>
      (row0.map Prod.fst).filter
        (fun key => isValidResponseValue (objGet row0 key) && !isMetadataKey key)

/-- Count of exact `"Strongly Agree"` responses in a column. -/
def saCount (data : List Obj) (question : String) : Nat :=
  (data.filter (fun row => objGet row question = "Strongly Agree")).length

/-- `loadData`'s ranking: pair each question with its `"Strongly Agree"`
count and sort descending with JS `Array.prototype.sort` (stable; modelled by
`List.mergeSort`). -/
def rankQuestions (data : List Obj) (questions : List String) : List String :=
  ((questions.map (fun q => (q, saCount data q))).mergeSort
      (fun a b => b.2 ≤ a.2)).map Prod.fst

/-- The `ExecutiveSummary` record. -/
structure ExecutiveSummary where
  totalResponses : Nat
  highestRatedQuestion : String
  highestRatedPercentage : Nat
  lowestRatedQuestion : String
  lowestRatedPercentage : Nat
  overallSatisfaction : Nat
deriving Repr, DecidableEq

/-- `calculateExecutiveSummary` (survey-selector revision): `null` on empty
data or empty question list; otherwise satisfaction percentages count
`"Strongly Agree"` or `"Agree"` rows over all records, room-for-improvement
percentages count `"Disagree"` rows over all records, highest = first
question with its satisfaction rate, lowest = last question with its
Disagree rate, and overall satisfaction is the rounded mean of the
satisfaction percentages. -/
def calculateExecutiveSummary (parsedData : List Obj) (questions : List String) :
    Option ExecutiveSummary :=
  if parsedData = [] ∨ questions = [] then none
  else
    let totalResponses := parsedData.length
    let satisfactionPercentages := questions.map (fun q =>
      roundDiv
        (100 * (parsedData.filter (fun row =>
          objGet row q = "Strongly Agree" ∨ objGet row q = "Agree")).length)
        totalResponses)
    let roomForImprovementPercentages := questions.map (fun q =>
      roundDiv
        (100 * (parsedData.filter (fun row => objGet row q = "Disagree")).length)
        totalResponses)
    some
      { totalResponses := totalResponses
        highestRatedQuestion := questions.headD ""
        highestRatedPercentage := satisfactionPercentages.headD 0
        lowestRatedQuestion := questions.getD (questions.length - 1) ""
        lowestRatedPercentage :=
          roomForImprovementPercentages.getD (questions.length - 1) 0
        overallSatisfaction :=
          roundDiv satisfactionPercentages.sum satisfactionPercentages.length }

/-- JS `Math.round` on an exact rational (round half up, `⌊x + 1/2⌋`). -/
def jsRound (x : ℚ) : ℤ := ⌊x + 1 / 2⌋

/-- `calculateAveragePercentage`: classify the questions from `data[0]`, take
each question's unrounded percentage of exact `responseType` responses over
all records, and round the mean.  When no column classifies, the JS code
evaluates `Math.round(0 / 0) = NaN`; that value is modelled as `none`. -/
def calculateAveragePercentage (data : List Obj) (responseType : String) :
    Option ℤ :=
  let questions := classifyQuestions data
  let percentages : List ℚ := questions.map (fun q =>
    ((data.filter (fun row => objGet row q = responseType)).length : ℚ) /
      (data.length : ℚ) * 100)
  if percentages.length = 0 then none
  else some (jsRound (percentages.sum / (percentages.length : ℚ)))

/-! ## HTTP route handler (`src/app/api/survey/route.ts`) -/

/-- Body/status of a response from the `GET /api/survey` handler. -/
inductive ApiResponse where
  /-- `NextResponse.json({error}, {status})`. -/
  | jsonMsg (status : Nat) (error : String)
  /-- A JSON array of records (what the spec describes; the handler never
  builds one). -/
  | jsonRecords (status : Nat) (records : List Obj)
  /-- `new NextResponse(fileContents)` with `Content-Type: text/csv`. -/
  | csvText (status : Nat) (contents : String)
deriving Repr, DecidableEq

/-- Whether a response is a JSON array of records. -/
def ApiResponse.isJsonRecords : ApiResponse → Bool
  | .jsonRecords _ _ => true
  | _ => false

/-- The data file selected by a valid `type` value. -/
def surveyFilename (t : String) : String :=
  if t = "opening" then "Black+History+Retreat+Survey+(Opening+Survey).csv"
  else "Black+Futures+Retreat+Survey+(Closing+Survey).csv"

/-- The `GET` handler: `type?` is `searchParams.get("type")` (`none` when
absent), `read` abstracts `fs.readFile` on the selected filename
(`Except.error` = thrown IO error).  Missing or invalid `type` → 400
`"Invalid survey type"`; otherwise the raw file contents are returned as
`text/csv` on success, and any failure is caught as 500
`"Failed to load survey data"`. -/
def surveyGET (type? : Option String)
    (read : String → Except Unit String) : ApiResponse :=
  match type? with
  | none => .jsonMsg 400 "Invalid survey type"
  | some t =>
      if t = "opening" ∨ t = "closing" then
        match read (surveyFilename t) with
        | .ok contents => .csvText 200 contents
        | .error _ => .jsonMsg 500 "Failed to load survey data"
      else .jsonMsg 400 "Invalid survey type"

/-! ## Spec-side formulations used to compare against the code -/

/-- The distribution exactly as the claim words it: out-of-set values are
excluded from the percentage denominator as well, so the denominator is the
number of non-empty values that belong to the Likert set. -/
def distributionClaimed (data : List Obj) (question : String) : List ChartData :=
  let nonEmpty := (data.map (fun row => objGet row question)).filter (fun v => v ≠ "")
  let inSet := nonEmpty.filter (fun v => likertLabels.contains v)
  (likertLabels.filter (fun l => nonEmpty.count l > 0)).map
    (fun l => ⟨l, nonEmpty.count l, roundDiv (100 * nonEmpty.count l) inSet.length⟩)

/-- The distribution as the amended claim describes it: each of the seven
Likert labels with a nonzero occurrence count among the column's non-empty
values is reported with round(100 × count / non-empty-response-count), where
the denominator counts all non-empty values — including values outside the
Likert set. -/
def distributionAmended (data : List Obj) (question : String) : List ChartData :=
  let nonEmpty := (data.map (fun row => objGet row question)).filter (fun v => v ≠ "")
  (likertLabels.filter (fun l => nonEmpty.count l > 0)).map
    (fun l => ⟨l, nonEmpty.count l, roundDiv (100 * nonEmpty.count l) nonEmpty.length⟩)

/-- Number of rows whose (possibly missing) value in a column equals a given
label. -/
def labelCount (data : List Obj) (question label : String) : Nat :=
  (data.map (fun row => objGet row question)).count label

/-- The claim's positive-response rate:
round(100 × (count "Strongly Agree" + count "Agree") / totalResponses). -/
def posRate (data : List Obj) (question : String) : Nat :=
  roundDiv
    (100 * (labelCount data question "Strongly Agree" + labelCount data question "Agree"))
    data.length

/-- The claim's Disagree rate: round(100 × count "Disagree" / totalResponses). -/
def disagreeRate (data : List Obj) (question : String) : Nat :=
  roundDiv (100 * labelCount data question "Disagree") data.length

/-- The composite ranking pipeline wired up in `loadData`: classify the
questions from the first record, then rank them. -/
def rankedQuestions (data : List Obj) : List String :=
  rankQuestions data (classifyQuestions data)

/-! ## Helper lemmas -/

theorem isPrefixList_iff (p c : List Char) : isPrefixList p c = true ↔ p <+: c := by
  induction p generalizing c with
  | nil => simp [isPrefixList]
  | cons x p ih =>
    cases c with
    | nil => simp [isPrefixList]
    | cons y c =>
      simp [isPrefixList, ih, List.cons_prefix_cons, Bool.and_eq_true]

theorem hasInfixList_iff (p c : List Char) : hasInfixList p c = true ↔ p <:+: c := by
  induction c with
  | nil =>
    simp [hasInfixList, isPrefixList_iff]
  | cons x c ih =>
    simp [hasInfixList, isPrefixList_iff, ih, List.infix_cons_iff]

theorem strIncludes_iff (s pat : String) : strIncludes s pat = true ↔ pat.data <:+: s.data :=
  hasInfixList_iff pat.data s.data

theorem mem_keys_of_objGet_ne {o : Obj} {k : String} (h : objGet o k ≠ "") :
    k ∈ o.map Prod.fst := by
  unfold objGet at h
  cases hf : o.find? (fun p => p.1 = k) with
  | none => rw [hf] at h; simp at h
  | some p =>
    have hp := List.mem_of_find?_eq_some hf
    have hk := List.find?_some hf
    simp only [decide_eq_true_eq] at hk
    exact List.mem_map.mpr ⟨p, hp, hk⟩

/-- Effect of the counting fold in `processLikertResponses`: starting from a
table assigning `f l` to each label, after folding over `rs` each label's
entry holds `f l + rs.count l`; values outside the label set never touch the
table. -/
theorem foldCounts (labels : List String) (rs : List String) (f : String → Nat) :
    rs.foldl
      (fun cs r =>
        if labels.contains r then
          cs.map (fun p => if p.1 = r then (p.1, p.2 + 1) else p)
        else cs)
      (labels.map (fun l => (l, f l))) =
    labels.map (fun l => (l, f l + rs.count l)) := by
  induction rs generalizing f with
  | nil => simp
  | cons r rs ih =>
    rw [List.foldl_cons]
    by_cases h : labels.contains r = true
    · rw [if_pos h, List.map_map]
      have h1 : labels.map
          ((fun p : String × Nat => if p.1 = r then (p.1, p.2 + 1) else p) ∘
            (fun l => (l, f l))) =
          labels.map (fun l => (l, if l = r then f l + 1 else f l)) := by
        apply List.map_congr_left
        intro l _
        by_cases hl : l = r <;> simp [hl]
      rw [h1, ih]
      apply List.map_congr_left
      intro l _
      by_cases hl : l = r
      · subst hl; simp [List.count_cons]; omega
      · simp [List.count_cons, hl, Ne.symm hl]
    · rw [if_neg h, ih]
      apply List.map_congr_left
      intro l hl
      have hlr : l ≠ r := by
        intro e
        subst e
        exact h (List.elem_eq_true_of_mem hl)
      simp [List.count_cons, hlr, Ne.symm hlr]

/-- A filter for equality with one of two distinct labels counts exactly the
occurrences of each. -/
theorem length_filter_eq_or {α : Type} (l : List α) (g : α → String) (a b : String)
    (hab : a ≠ b) :
    (l.filter (fun x => decide (g x = a ∨ g x = b))).length =
      (l.map g).count a + (l.map g).count b := by
  induction l with
  | nil => simp
  | cons x l ih =>
    rw [List.filter_cons, List.map_cons, List.count_cons, List.count_cons]
    by_cases hx : g x = a ∨ g x = b
    · rw [if_pos (by simpa using hx), List.length_cons, ih]
      rcases hx with hx | hx
      · simp [hx, hab, Ne.symm hab, beq_iff_eq]
        omega
      · simp [hx, hab, Ne.symm hab, beq_iff_eq]
        omega
    · push_neg at hx
      rw [if_neg (by simpa using hx), ih]
      simp [beq_iff_eq, hx.1, hx.2, Ne.symm hx.1, Ne.symm hx.2]

/-- A filter for equality with a single label counts its occurrences. -/
theorem length_filter_eq {α : Type} (l : List α) (g : α → String) (a : String) :
    (l.filter (fun x => decide (g x = a))).length = (l.map g).count a := by
  induction l with
  | nil => simp
  | cons x l ih =>
    rw [List.filter_cons, List.map_cons, List.count_cons]
    by_cases hx : g x = a
    · rw [if_pos (by simpa using hx), List.length_cons, ih]
      simp [hx, beq_iff_eq]
    · rw [if_neg (by simpa using hx), ih]
      simp [beq_iff_eq, hx, Ne.symm hx]

/-! ## Claims -/

/-- C1 counterexample: in a column with one `"Agree"` and one out-of-set
value `"Banana"`, the claim's denominator (non-empty in-set responses, here
1) would report `Agree` at 100%, but the code divides by all non-empty
responses (here 2) and reports 50%. -/
theorem C1_counterexample :
    distributionClaimed [[("Q", "Agree")], [("Q", "Banana")]] "Q" =
      [⟨"Agree", 1, 100⟩] ∧
    processLikertResponses [[("Q", "Agree")], [("Q", "Banana")]] "Q" =
      [⟨"Agree", 1, 50⟩] := by
  decide

/-- C1 amended: the distribution counts only the seven Likert labels among a
column's non-empty values, omits zero-count labels, and reports
round(100 × count / non-empty-response-count), where the denominator counts
all non-empty values including those outside the label set. -/
theorem C1_amended (data : List Obj) (question : String) :
    processLikertResponses data question = distributionAmended data question := by
  by_cases hd : data = []
  · subst hd
    simp [processLikertResponses, distributionAmended]
  · simp only [processLikertResponses, distributionAmended, if_neg hd]
    generalize (List.filter (fun v => decide (v ≠ ""))
      (List.map (fun row => objGet row question) data)) = resp
    rw [foldCounts likertLabels resp (fun _ => 0), List.filter_map, List.map_map]
    simp only [Nat.zero_add]
    rfl

/-- C9: `calculateExecutiveSummary` returns `null` (absent), not a thrown
error, whenever there are zero records or zero classified questions. -/
theorem C9 (data : List Obj) (questions : List String)
    (h : data = [] ∨ questions = []) :
    calculateExecutiveSummary data questions = none := by
  rw [calculateExecutiveSummary, if_pos h]

theorem C9_witness : calculateExecutiveSummary [] [] = none :=
  C9 [] [] (Or.inl rfl)

/-- C10: when no column classifies as a question (in particular when the
dataset is empty), `calculateAveragePercentage` evaluates the unguarded
`Math.round(0 / 0)` and returns `NaN` (modelled as `none`) instead of a
number. -/
theorem C10 (data : List Obj) (responseType : String)
    (h : data = [] ∨ classifyQuestions data = []) :
    calculateAveragePercentage data responseType = none := by
  have hq : classifyQuestions data = [] := by
    rcases h with h | h
    · subst h; rfl
    · exact h
  rw [calculateAveragePercentage]
  simp [hq]

theorem C10_witness : calculateAveragePercentage [[("Name", "Jane")]] "Agree" = none :=
  C10 [[("Name", "Jane")]] "Agree" (Or.inr (by decide))

/-- C2 counterexample: with a valid `type` and a readable file, the handler
returns the raw file contents as `text/csv`, not a JSON array of records;
and on an IO failure, the 500 body is `"Failed to load survey data"`, not
the claim's `"Failed to process survey data"`. -/
theorem C2_counterexample :
    (surveyGET (some "opening") (fun _ => .ok "raw,csv")).isJsonRecords = false ∧
    surveyGET (some "opening") (fun _ => .ok "raw,csv") = .csvText 200 "raw,csv" ∧
    surveyGET (some "opening") (fun _ => .error ()) =
      .jsonMsg 500 "Failed to load survey data" := by
  decide

/-- C2 amended: missing or invalid `type` yields 400
`{error:"Invalid survey type"}`; a valid `type` yields 200 with the selected
file's raw CSV contents (no parsing happens in the route); a read failure
yields 500 `{error:"Failed to load survey data"}`. -/
theorem C2_amended (type? : Option String) (read : String → Except Unit String) :
    ((∀ t, type? = some t → t ≠ "opening" ∧ t ≠ "closing") →
      surveyGET type? read = .jsonMsg 400 "Invalid survey type") ∧
    (∀ t contents, type? = some t → (t = "opening" ∨ t = "closing") →
      read (surveyFilename t) = .ok contents →
      surveyGET type? read = .csvText 200 contents) ∧
    (∀ t e, type? = some t → (t = "opening" ∨ t = "closing") →
      read (surveyFilename t) = .error e →
      surveyGET type? read = .jsonMsg 500 "Failed to load survey data") := by
  refine ⟨?_, ?_, ?_⟩
  · intro h
    cases type? with
    | none => rfl
    | some t =>
      obtain ⟨h1, h2⟩ := h t rfl
      rw [surveyGET, if_neg]
      rintro (h | h) <;> [exact h1 h; exact h2 h]
  · rintro t contents rfl hv hr
    rw [surveyGET, if_pos hv, hr]
  · rintro t e rfl hv hr
    rw [surveyGET, if_pos hv, hr]

theorem C2_witness : surveyGET (some "closing") (fun _ => .ok "x") = .csvText 200 "x" :=
  (C2_amended (some "closing") (fun _ => .ok "x")).2.1 "closing" "x" rfl (Or.inr rfl) rfl

theorem isValidResponseValue_iff (v : String) :
    isValidResponseValue v = true ↔
      v ≠ "" ∧ ("Agree".data <:+: v.data ∨ "Disagree".data <:+: v.data) := by
  simp [isValidResponseValue, strIncludes, hasInfixList_iff]

theorem isMetadataKey_iff (key : String) :
    isMetadataKey key = true ↔
      ("Response".data <+: key.data ∨ "ID".data <:+: key.data ∨
       key = "First Name" ∨ key = "Last Name" ∨ key = "Title" ∨
       key = "Organization") := by
  simp [isMetadataKey, isPrefixList_iff, strIncludes, hasInfixList_iff]
  tauto

/-- C4: in a non-empty dataset, a column is classified as a survey question
iff the first record's value for it is a non-empty string containing the
substring "Agree" or "Disagree", and the column name does not start with
"Response", does not contain "ID", and is not exactly one of the four fixed
metadata names — so those four names are excluded even when their first
value contains "Agree". -/
theorem C4 (row0 : Obj) (rest : List Obj) (key : String) :
    key ∈ classifyQuestions (row0 :: rest) ↔
      objGet row0 key ≠ "" ∧
      ("Agree".data <:+: (objGet row0 key).data ∨
       "Disagree".data <:+: (objGet row0 key).data) ∧
      ¬ "Response".data <+: key.data ∧
      ¬ "ID".data <:+: key.data ∧
      key ≠ "First Name" ∧ key ≠ "Last Name" ∧ key ≠ "Title" ∧
      key ≠ "Organization" := by
  rw [classifyQuestions, List.mem_filter]
  constructor
  · rintro ⟨hk, hpred⟩
    rw [Bool.and_eq_true, Bool.not_eq_true'] at hpred
    obtain ⟨hv, hm⟩ := hpred
    rw [isValidResponseValue_iff] at hv
    have hm' : ¬ isMetadataKey key = true := by simp [hm]
    rw [isMetadataKey_iff] at hm'
    push_neg at hm'
    exact ⟨hv.1, hv.2, hm'⟩
  · rintro ⟨h1, h2, hrest⟩
    refine ⟨mem_keys_of_objGet_ne h1, ?_⟩
    rw [Bool.and_eq_true, Bool.not_eq_true']
    refine ⟨(isValidResponseValue_iff _).mpr ⟨h1, h2⟩, ?_⟩
    have : ¬ isMetadataKey key = true := by
      rw [isMetadataKey_iff]
      push_neg
      exact hrest
    simpa using this

/-- C8: the ranking is a permutation of the given question list, is ordered
descending by exact-match "Strongly Agree" count, and is stable — any two
questions appearing in order with equal counts keep their relative order. -/
theorem C8 (data : List Obj) (questions : List String) :
    (rankQuestions data questions).Perm questions ∧
    (rankQuestions data questions).Pairwise
      (fun a b => saCount data b ≤ saCount data a) ∧
    (∀ a b, List.Sublist [a, b] questions → saCount data a = saCount data b →
      List.Sublist [a, b] (rankQuestions data questions)) := by
  have htrans : ∀ (x y z : String × Nat),
      (fun a b : String × Nat => decide (b.2 ≤ a.2)) x y = true →
      (fun a b : String × Nat => decide (b.2 ≤ a.2)) y z = true →
      (fun a b : String × Nat => decide (b.2 ≤ a.2)) x z = true := by
    intro x y z hxy hyz
    simp only [decide_eq_true_eq] at hxy hyz ⊢
    omega
  have htotal : ∀ (x y : String × Nat),
      ((fun a b : String × Nat => decide (b.2 ≤ a.2)) x y ||
        (fun a b : String × Nat => decide (b.2 ≤ a.2)) y x) = true := by
    intro x y
    simp only [Bool.or_eq_true, decide_eq_true_eq]
    omega
  unfold rankQuestions
  refine ⟨?_, ?_, ?_⟩
  · have hmap := (List.mergeSort_perm
      (questions.map (fun q => (q, saCount data q)))
      (fun a b => decide (b.2 ≤ a.2))).map Prod.fst
    rw [List.map_map] at hmap
    have he : (Prod.fst ∘ fun q : String => (q, saCount data q)) = id := rfl
    rw [he, List.map_id] at hmap
    exact hmap
  · have hs := List.sorted_mergeSort htrans htotal
      (questions.map (fun q => (q, saCount data q)))
    have hmem : ∀ p : String × Nat,
        p ∈ List.mergeSort (questions.map (fun q => (q, saCount data q)))
          (fun a b => decide (b.2 ≤ a.2)) →
        p.2 = saCount data p.1 := by
      intro p hp
      rw [List.mem_mergeSort] at hp
      obtain ⟨q, _, rfl⟩ := List.mem_map.mp hp
      rfl
    refine List.pairwise_map.mpr ?_
    refine List.Pairwise.imp_of_mem ?_ hs
    intro a b ha hb hr
    simp only [decide_eq_true_eq] at hr
    rw [← hmem a ha, ← hmem b hb]
    exact hr
  · intro a b hsub heq
    have h1 : List.Sublist [(a, saCount data a), (b, saCount data b)]
        (questions.map (fun q => (q, saCount data q))) := by
      simpa using hsub.map (fun q => (q, saCount data q))
    have h2 := List.pair_sublist_mergeSort htrans htotal (by simp [heq]) h1
    simpa using h2.map Prod.fst

/-- Five respondents giving questions A, B, C exact "Strongly Agree" counts
5, 5, 3 in original column order. -/
def stableExampleData : List Obj :=
  [[("A", "Strongly Agree"), ("B", "Strongly Agree"), ("C", "Strongly Agree")],
   [("A", "Strongly Agree"), ("B", "Strongly Agree"), ("C", "Strongly Agree")],
   [("A", "Strongly Agree"), ("B", "Strongly Agree"), ("C", "Strongly Agree")],
   [("A", "Strongly Agree"), ("B", "Strongly Agree"), ("C", "Neutral")],
   [("A", "Strongly Agree"), ("B", "Strongly Agree"), ("C", "Neutral")]]

theorem C8_witness :
    saCount stableExampleData "A" = 5 ∧ saCount stableExampleData "B" = 5 ∧
    saCount stableExampleData "C" = 3 ∧
    List.Sublist ["A", "B"] (rankQuestions stableExampleData ["A", "B", "C"]) :=
  ⟨by decide, by decide, by decide,
    (C8 stableExampleData ["A", "B", "C"]).2.2 "A" "B" (by decide) (by decide)⟩

/-- C3: for a non-empty dataset with at least one classified question, the
executive summary over the ranked question list reports the record count as
totalResponses; the first ranked question with its positive-response rate
(count of "Strongly Agree" plus count of "Agree", over totalResponses); the
last ranked question with its Disagree-count-over-totalResponses rate; and
the rounded mean of the per-question positive-response rates. -/
theorem C3 (data : List Obj) (hd : data ≠ []) (hq : classifyQuestions data ≠ []) :
    calculateExecutiveSummary data (rankedQuestions data) =
      some
        { totalResponses := data.length
          highestRatedQuestion := (rankedQuestions data).headD ""
          highestRatedPercentage := posRate data ((rankedQuestions data).headD "")
          lowestRatedQuestion :=
            (rankedQuestions data).getD ((rankedQuestions data).length - 1) ""
          lowestRatedPercentage :=
            disagreeRate data
              ((rankedQuestions data).getD ((rankedQuestions data).length - 1) "")
          overallSatisfaction :=
            roundDiv ((rankedQuestions data).map (posRate data)).sum
              (rankedQuestions data).length } := by
  have hlen : (rankedQuestions data).length = (classifyQuestions data).length := by
    unfold rankedQuestions rankQuestions
    simp
  have hqs : rankedQuestions data ≠ [] := by
    intro h
    apply hq
    rw [← List.length_eq_zero, ← hlen, h, List.length_nil]
  have hpos : ∀ q : String,
      roundDiv (100 * (data.filter (fun row =>
        decide (objGet row q = "Strongly Agree" ∨ objGet row q = "Agree"))).length)
        data.length = posRate data q := by
    intro q
    rw [posRate, labelCount, labelCount,
      ← length_filter_eq_or data (fun row => objGet row q) "Strongly Agree" "Agree"
        (by decide)]
  have hdis : ∀ q : String,
      roundDiv (100 * (data.filter (fun row =>
        decide (objGet row q = "Disagree"))).length) data.length =
        disagreeRate data q := by
    intro q
    rw [disagreeRate, labelCount,
      ← length_filter_eq data (fun row => objGet row q) "Disagree"]
  have hm : (rankedQuestions data).map (fun q =>
      roundDiv (100 * (data.filter (fun row =>
        decide (objGet row q = "Strongly Agree" ∨ objGet row q = "Agree"))).length)
        data.length) = (rankedQuestions data).map (posRate data) :=
    List.map_congr_left (fun q _ => hpos q)
  have hmdis : (rankedQuestions data).map (fun q =>
      roundDiv (100 * (data.filter (fun row =>
        decide (objGet row q = "Disagree"))).length) data.length) =
      (rankedQuestions data).map (disagreeRate data) :=
    List.map_congr_left (fun q _ => hdis q)
  have hgetD : ∀ (l : List String) (f : String → Nat) (i : Nat), i < l.length →
      (l.map f).getD i 0 = f (l.getD i "") := by
    intro l f i hi
    rw [List.getD_eq_getElem?_getD, List.getD_eq_getElem?_getD, List.getElem?_map,
      List.getElem?_eq_getElem hi]
    simp
  have hlt : (rankedQuestions data).length - 1 < (rankedQuestions data).length :=
    Nat.sub_lt (List.length_pos.mpr hqs) Nat.one_pos
  simp only [calculateExecutiveSummary]
  rw [if_neg (by push_neg; exact ⟨hd, hqs⟩)]
  simp only [Option.some.injEq, ExecutiveSummary.mk.injEq]
  refine ⟨trivial, trivial, ?_, trivial, ?_, ?_⟩
  · rw [hm]
    obtain ⟨q, t, hqt⟩ := List.exists_cons_of_ne_nil hqs
    rw [hqt]
    simp
  · rw [hmdis, hgetD _ _ _ hlt]
  · rw [hm, List.length_map]

/-- Two respondents over one metadata column and two question columns,
classifying to questions Q1 and Q2 with "Strongly Agree" counts 1 and 0. -/
def summaryExampleData : List Obj :=
  [[("First Name", "Jane"), ("Q1", "Strongly Agree"), ("Q2", "Disagree")],
   [("First Name", "Sam"), ("Q1", "Agree"), ("Q2", "Neutral")]]

theorem C3_witness :
    calculateExecutiveSummary summaryExampleData
        (rankedQuestions summaryExampleData) =
      some ⟨2, "Q1", 100, "Q2", 50, 50⟩ := by
  have h := C3 summaryExampleData (by decide) (by decide)
  rw [h]
  have hrank : rankedQuestions summaryExampleData = ["Q1", "Q2"] := by
    unfold rankedQuestions rankQuestions
    rw [List.mergeSort_of_sorted (by decide)]
    decide
  rw [hrank]
  decide

theorem hasAnchorRow_iff (row : List String) :
    hasAnchorRow row = true ↔ ∃ c ∈ row, stripCell c = "First Name" := by
  simp [hasAnchorRow]

/-- C6: `parseSurveyCSV` selects as header the first parsed row containing a
cell that trims-and-strips to the anchor value "First Name"; when no row
contains such a cell it fails with the header-not-found error rather than
returning records. -/
theorem C6 (text : String) :
    (parseSurveyCSV text = .error "Could not find header row" ↔
      ∀ row ∈ papaParse text, ¬ ∃ c ∈ row, stripCell c = "First Name") ∧
    (∀ r, parseSurveyCSV text = .ok r →
      r.headerRowIndex < (papaParse text).length ∧
      (∃ c ∈ (papaParse text).getD r.headerRowIndex [],
        stripCell c = "First Name") ∧
      ∀ j < r.headerRowIndex,
        ¬ ∃ c ∈ (papaParse text).getD j [], stripCell c = "First Name") := by
  rw [parseSurveyCSV]
  generalize papaParse text = rows
  constructor
  · cases hf : rows.findIdx? hasAnchorRow with
    | none =>
      simp only [normalizeRows, hf]
      constructor
      · intro _ row hrow hex
        rw [List.findIdx?_eq_none_iff] at hf
        exact absurd ((hasAnchorRow_iff row).mpr hex) (by simpa using hf row hrow)
      · intro _
        trivial
    | some i =>
      simp only [normalizeRows, hf]
      constructor
      · intro h
        exact absurd h (by simp)
      · intro hall
        obtain ⟨hlen, hp, -⟩ := List.findIdx?_eq_some_iff_getElem.mp hf
        exact absurd ((hasAnchorRow_iff _).mp hp)
          (hall _ (List.getElem_mem hlen))
  · intro r hr
    cases hf : rows.findIdx? hasAnchorRow with
    | none =>
      simp only [normalizeRows, hf] at hr
      exact absurd hr (by simp)
    | some i =>
      simp only [normalizeRows, hf] at hr
      injection hr with hr
      subst hr
      dsimp only
      obtain ⟨hlen, hp, hprev⟩ := List.findIdx?_eq_some_iff_getElem.mp hf
      refine ⟨hlen, ?_, ?_⟩
      · rw [List.getD_eq_getElem rows [] hlen]
        exact (hasAnchorRow_iff _).mp hp
      · intro j hj hex
        have hjlen : j < rows.length := Nat.lt_trans hj hlen
        rw [List.getD_eq_getElem rows [] hjlen] at hex
        exact hprev j hj ((hasAnchorRow_iff _).mpr hex)

theorem C6_witness :
    1 < (papaParse "banner\nFirst Name,Q1\nJane,Agree").length ∧
    (∃ c ∈ (papaParse "banner\nFirst Name,Q1\nJane,Agree").getD 1 [],
      stripCell c = "First Name") ∧
    ∀ j < 1, ¬ ∃ c ∈ (papaParse "banner\nFirst Name,Q1\nJane,Agree").getD j [],
      stripCell c = "First Name" := by
  have h := (C6 "banner\nFirst Name,Q1\nJane,Agree").2
    ⟨3, 1, ["First Name", "Q1"], [[("First Name", "Jane"), ("Q1", "Agree")]]⟩
    (by decide)
  simpa using h

theorem foldl_objSet_congr (l : List (Nat × String)) (o : Obj) (v v' : Nat → String)
    (h : ∀ p ∈ l, v p.1 = v' p.1) :
    l.foldl (fun o p => objSet o p.2 (v p.1)) o =
      l.foldl (fun o p => objSet o p.2 (v' p.1)) o := by
  induction l generalizing o with
  | nil => rfl
  | cons p l ih =>
    rw [List.foldl_cons, List.foldl_cons, h p (List.mem_cons_self p l)]
    exact ih _ (fun q hq => h q (List.mem_cons_of_mem p hq))

/-- Cells read during record construction are unchanged by truncating a row
to the header length and padding a short row with empty strings. -/
theorem cellAt_take_pad (H : Nat) (row : List String) (i : Nat) (hi : i < H) :
    cellAt (row.take H ++ List.replicate (H - row.length) "") i = cellAt row i := by
  have hlr : (row.take H ++ List.replicate (H - row.length) "").length = H := by
    simp [List.length_take]
    omega
  by_cases hrow : i < row.length
  · have hta : i < (row.take H).length := by
      simp [List.length_take]
      omega
    rw [cellAt, cellAt, if_pos hrow, if_pos (show i < _ by rw [hlr]; exact hi)]
    rw [List.getD_eq_getElem?_getD, List.getD_eq_getElem?_getD,
      List.getElem?_append_left hta, List.getElem?_take_of_lt hi]
  · rw [cellAt, cellAt, if_neg hrow, if_pos (show i < _ by rw [hlr]; exact hi)]
    have hta : (row.take H).length ≤ i := by
      simp [List.length_take]
      omega
    rw [List.getD_eq_getElem?_getD, List.getElem?_append_right hta,
      List.getElem?_replicate, if_pos (by simp [List.length_take]; omega)]
    decide

/-- Keys accumulated by repeated JS property assignment: fresh, pairwise
distinct keys are appended in iteration order. -/
theorem foldl_objSet_keys (kvs : List (String × String)) :
    ∀ o : Obj, (kvs.map Prod.fst).Nodup →
    (∀ k ∈ kvs.map Prod.fst, ∀ p ∈ o, p.1 ≠ k) →
    ((kvs.foldl (fun o kv => objSet o kv.1 kv.2) o).map Prod.fst) =
      o.map Prod.fst ++ kvs.map Prod.fst := by
  induction kvs with
  | nil =>
    intro o _ _
    simp
  | cons kv kvs ih =>
    intro o hnd hfresh
    rw [List.foldl_cons]
    have hset : objSet o kv.1 kv.2 = o ++ [(kv.1, kv.2)] := by
      rw [objSet, if_neg]
      intro hany
      rw [List.any_eq_true] at hany
      obtain ⟨p, hp, hpk⟩ := hany
      rw [decide_eq_true_eq] at hpk
      exact hfresh kv.1 (by simp) p hp hpk
    rw [hset, ih (o ++ [(kv.1, kv.2)])]
    · simp
    · rw [List.map_cons] at hnd
      exact hnd.of_cons
    · intro k hk p hp
      rcases List.mem_append.mp hp with h | h
      · exact hfresh k (List.mem_cons_of_mem _ hk) p h
      · rw [List.mem_singleton] at h
        subst h
        rw [List.map_cons, List.nodup_cons] at hnd
        intro e
        exact hnd.1 (e ▸ hk)

/-- The keys of a constructed record are exactly the (distinct) header
names, in order. -/
theorem mkRecord_keys (headers row : List String) (h : headers.Nodup) :
    (mkRecord headers row).map Prod.fst = headers := by
  have hfold : mkRecord headers row =
      (headers.enum.map (fun p : Nat × String => (p.2, cellAt row p.1))).foldl
        (fun o kv => objSet o kv.1 kv.2) [] := by
    rw [mkRecord, List.foldl_map]
  have hkeys : ((headers.enum.map
      (fun p : Nat × String => (p.2, cellAt row p.1))).map Prod.fst) = headers := by
    rw [List.map_map]
    exact List.enum_map_snd headers
  rw [hfold, foldl_objSet_keys _ [] (by rw [hkeys]; exact h) (by intro k _ p hp; simp at hp)]
  rw [hkeys]
  rfl

/-- C7: for a preamble with no anchor row followed by the header row and the
data rows, normalization keeps exactly the non-blank data rows, in source
order, mapped through `mkRecord` over the stripped header names; rows are
truncated to the header length and padded with empty strings; and every
record's key list equals the (distinct) header names. -/
theorem C7 (pre : List (List String)) (hdr : List String)
    (rows : List (List String))
    (hpre : ∀ r ∈ pre, hasAnchorRow r = false)
    (hhdr : hasAnchorRow hdr = true) :
    normalizeRows (pre ++ hdr :: rows) =
      .ok ⟨(pre ++ hdr :: rows).length, pre.length, hdr.map stripCell,
        (rows.filter rowNonBlank).map (mkRecord (hdr.map stripCell))⟩ ∧
    (∀ headers row : List String,
      mkRecord headers row =
        mkRecord headers (row.take headers.length ++
          List.replicate (headers.length - row.length) "")) ∧
    (∀ headers row : List String, headers.Nodup →
      (mkRecord headers row).map Prod.fst = headers) := by
  refine ⟨?_, ?_, ?_⟩
  · have hidx : (pre ++ hdr :: rows).findIdx? hasAnchorRow = some pre.length := by
      rw [List.findIdx?_append, List.findIdx?_eq_none_iff.mpr hpre]
      simp [List.findIdx?_cons, hhdr]
    have hget : (pre ++ hdr :: rows).getD pre.length [] = hdr := by
      rw [List.getD_append_right pre (hdr :: rows) [] pre.length le_rfl]
      simp
    have hdrop : (pre ++ hdr :: rows).drop (pre.length + 1) = rows := by
      rw [List.drop_append]
      simp
    simp only [normalizeRows, hidx, hget, hdrop]
  · intro headers row
    rw [mkRecord, mkRecord]
    exact foldl_objSet_congr headers.enum [] (cellAt row)
      (cellAt (row.take headers.length ++
        List.replicate (headers.length - row.length) ""))
      (fun p hp =>
        (cellAt_take_pad headers.length row p.1 (List.fst_lt_of_mem_enum hp)).symm)
  · exact mkRecord_keys

theorem C7_witness :
    normalizeRows
        [["banner"], ["First Name", "Q1"], ["Jane", "Agree"],
         ["Sam", "Disagree"], ["", " "], ["Kim", "Neutral"]] =
      .ok ⟨6, 1, ["First Name", "Q1"],
        [[("First Name", "Jane"), ("Q1", "Agree")],
         [("First Name", "Sam"), ("Q1", "Disagree")],
         [("First Name", "Kim"), ("Q1", "Neutral")]]⟩ := by
  have h := (C7 [["banner"]] ["First Name", "Q1"]
      [["Jane", "Agree"], ["Sam", "Disagree"], ["", " "], ["Kim", "Neutral"]]
      (by decide) (by decide)).1
  exact h.trans (by decide)

/-- C5 counterexample: for the raw cell `"""abc"""`, the stored value is
`abc`, not the claim's `"abc"` — the CSV parser has already removed the
outer quote pair and collapsed the doubled quotes before the explicit strip
runs. -/
theorem C5_counterexample :
    parseSurveyCSV "First Name,Q1\nJane,\"\"\"abc\"\"\"" =
      .ok ⟨2, 0, ["First Name", "Q1"],
        [[("First Name", "Jane"), ("Q1", "abc")]]⟩ ∧
    objGet [("First Name", "Jane"), ("Q1", "abc")] "Q1" ≠ "\"abc\"" := by
  decide

/-- C5 amended: the explicit strip step alone removes exactly one layer of
quote marks from its input string (`"""abc"""` strips to `""abc""`), but a
raw cell written as `"""abc"""` in the input is first CSV-unescaped by the
parser to `"abc"`, and the strip then removes that remaining pair, so the
stored value is `abc`. -/
theorem C5_amended :
    stripCell "\"\"\"abc\"\"\"" = "\"\"abc\"\"" ∧
    papaParse "First Name,Q1\nJane,\"\"\"abc\"\"\"" =
      [["First Name", "Q1"], ["Jane", "\"abc\""]] ∧
    stripCell "\"abc\"" = "abc" ∧
    parseSurveyCSV "First Name,Q1\nJane,\"\"\"abc\"\"\"" =
      .ok ⟨2, 0, ["First Name", "Q1"],
        [[("First Name", "Jane"), ("Q1", "abc")]]⟩ := by
  decide
